import Mathlib

/-!
Shallow embedding of the marker-clustering and viewport-transform core of the
Micrositio-Buenas-Practicas repository.

Number semantics: JavaScript `number` arithmetic is embedded as exact rational
(`ℚ`) arithmetic.  All values arising in the claims are small rationals, so no
rounding behaviour is relevant to the properties checked here; `NaN`/`Infinity`
have no counterpart in `ℚ` and float-specific claims are discussed in the
results where they arise.

The viewport transform code is embedded from `src/src/types/index.ts`
(the `InteractiveMap` component): `constrainToBounds`, `centerMap`,
`handleWheel`, `handleTouchMove` (single-touch drag and pinch branches),
`handleMouseMove`, `handleClusterClick`, and the zoom-in / zoom-out / reset
button handlers.  The map element's `getBoundingClientRect()` is modelled as
an `Option Rect` argument: `none` when the element is not mounted (the only
case in which the source's `if (!rect) return` guard fires).
-/

/-- A DOMRect as read by `getBoundingClientRect()`: the fields the map code
uses (`left`, `top`, `width`, `height`), as rationals. -/
structure Rect where
  left : ℚ
  top : ℚ
  width : ℚ
  height : ℚ
deriving DecidableEq

/-- The pan/zoom state `{ x, y, scale }` held by the `InteractiveMap`
component (`src/src/types/index.ts`, `interface Transform`). -/
structure Transform where
  x : ℚ
  y : ℚ
  scale : ℚ
deriving DecidableEq

/-- `constrainToBounds(x, y, scale)` from `src/src/types/index.ts` lines
222-257.  The source reads `mapRef.current?.getBoundingClientRect()` and
returns `(x, y)` unchanged when it is unavailable; otherwise it clamps `x`
into `[rect.width - 2638*scale, 455*scale]` and `y` into
`[rect.height - 1822*scale, 521*scale]` via `Math.min(Math.max(...))`. -/
def constrainToBounds (rect? : Option Rect) (x y scale : ℚ) : ℚ × ℚ :=
  match rect? with
  | none => (x, y)
  | some rect =>
    let mapWidth : ℚ := 2638
    let mapHeight : ℚ := 1822
    let mapOffsetX : ℚ := 455
    let mapOffsetY : ℚ := 521
    let scaledMapWidth := mapWidth * scale
    let scaledMapHeight := mapHeight * scale
    let scaledOffsetX := mapOffsetX * scale
    let scaledOffsetY := mapOffsetY * scale
    let minX := rect.width - scaledMapWidth
    let maxX := scaledOffsetX
    let minY := rect.height - scaledMapHeight
    let maxY := scaledOffsetY
    (min (max x minX) maxX, min (max y minY) maxY)

/-- The clamp function as worded by the spec (§4.2, boundary clamping):
clamp `v` into the interval `[lo, hi]`. -/
def clamp (v lo hi : ℚ) : ℚ := min (max v lo) hi

/-- The pre-clamp transform computed by `handleWheel` (`src/src/types/index.ts`
lines 378-420): the scale factor is `0.9` on scroll-down (`deltaY > 0`) and
`1.1` otherwise; the new scale is clamped into
`[max(min(w/2183, h/1301) * 0.9, 0.6), 3]`; the raw translation anchors the
zoom at the mouse position `(clientX - rect.left, clientY - rect.top)`.
Decimal literals of the source are written as exact fractions. -/
def handleWheelRaw (rect : Rect) (clientX clientY deltaY : ℚ) (t : Transform) : Transform :=
  let mouseX := clientX - rect.left
  let mouseY := clientY - rect.top
  let scaleFactor : ℚ := if 0 < deltaY then 9 / 10 else 11 / 10
  let mapWidth : ℚ := 2638
  let mapHeight : ℚ := 1822
  let mapOffsetX : ℚ := 455
  let mapOffsetY : ℚ := 521
  let effectiveMapWidth := mapWidth - mapOffsetX
  let effectiveMapHeight := mapHeight - mapOffsetY
  let scaleToFitWidth := rect.width / effectiveMapWidth
  let scaleToFitHeight := rect.height / effectiveMapHeight
  let minZoomScale := min scaleToFitWidth scaleToFitHeight * (9 / 10)
  let absoluteMinZoom := max minZoomScale (6 / 10)
  let newScale := min (max (t.scale * scaleFactor) absoluteMinZoom) 3
  { x := mouseX - (mouseX - t.x) * (newScale / t.scale),
    y := mouseY - (mouseY - t.y) * (newScale / t.scale),
    scale := newScale }

/-- `handleWheel`: no-op when the map element has no rect; otherwise the raw
zoomed transform with its translation clamped by `constrainToBounds`. -/
def handleWheel (rect? : Option Rect) (clientX clientY deltaY : ℚ) (t : Transform) : Transform :=
  match rect? with
  | none => t
  | some rect =>
    let raw := handleWheelRaw rect clientX clientY deltaY t
    let c := constrainToBounds (some rect) raw.x raw.y raw.scale
    { x := c.1, y := c.2, scale := raw.scale }

/-- The pre-clamp transform computed by the pinch branch of `handleTouchMove`
(`src/src/types/index.ts` lines 463-490): the scale factor is the ratio of the
current two-touch distance to the last recorded one, the new scale is clamped
into `[0.6, 3]`, and the zoom is anchored at the midpoint of the two touches
(made viewport-relative by subtracting `rect.left`/`rect.top`).  The two touch
distances (square roots in the source) enter only through this ratio and are
taken as inputs. -/
def handlePinchRaw (rect : Rect) (t1x t1y t2x t2y lastTouchDistance currentDistance : ℚ)
    (t : Transform) : Transform :=
  let scaleFactor := currentDistance / lastTouchDistance
  let newScale := min (max (t.scale * scaleFactor) (6 / 10)) 3
  let centerX := (t1x + t2x) / 2 - rect.left
  let centerY := (t1y + t2y) / 2 - rect.top
  { x := centerX - (centerX - t.x) * (newScale / t.scale),
    y := centerY - (centerY - t.y) * (newScale / t.scale),
    scale := newScale }

/-- The pinch branch of `handleTouchMove`, with the source's guards: the
branch runs only when `lastTouchDistance` is truthy (nonzero), returns before
any state change when the rect is unavailable, and again when the computed
`currentDistance` is falsy (zero). -/
def handleTouchMovePinch (rect? : Option Rect)
    (t1x t1y t2x t2y lastTouchDistance currentDistance : ℚ) (t : Transform) : Transform :=
  if lastTouchDistance = 0 then t
  else
    match rect? with
    | none => t
    | some rect =>
      if currentDistance = 0 then t
      else
        let raw := handlePinchRaw rect t1x t1y t2x t2y lastTouchDistance currentDistance t
        let c := constrainToBounds (some rect) raw.x raw.y raw.scale
        { x := c.1, y := c.2, scale := raw.scale }

/-- The dragging branch of `handleMouseMove` (`src/src/types/index.ts` lines
358-372): when `isDragging`, pan to `(clientX - dragStart.x, clientY -
dragStart.y)` clamped at the current scale; the scale field is spread from the
previous state. -/
def handleMouseMove (isDragging : Bool) (dragStartX dragStartY clientX clientY : ℚ)
    (rect? : Option Rect) (t : Transform) : Transform :=
  if isDragging then
    let c := constrainToBounds rect? (clientX - dragStartX) (clientY - dragStartY) t.scale
    { x := c.1, y := c.2, scale := t.scale }
  else t

/-- The single-touch drag branch of `handleTouchMove` (`src/src/types/index.ts`
lines 451-462): identical computation to `handleMouseMove`, driven by the
first touch point. -/
def handleTouchMoveDrag (isDragging : Bool) (dragStartX dragStartY touchX touchY : ℚ)
    (rect? : Option Rect) (t : Transform) : Transform :=
  if isDragging then
    let c := constrainToBounds rect? (touchX - dragStartX) (touchY - dragStartY) t.scale
    { x := c.1, y := c.2, scale := t.scale }
  else t

/-- The initial scale computed by `centerMap` (`src/src/types/index.ts` lines
260-297): fit the effective map (2638-455 by 1822-521) into the viewport with
a 0.95 padding factor, floored at 0.6. -/
def centerMapScale (rect : Rect) : ℚ :=
  let mapWidth : ℚ := 2638
  let mapHeight : ℚ := 1822
  let mapOffsetX : ℚ := 455
  let mapOffsetY : ℚ := 521
  let effectiveMapWidth := mapWidth - mapOffsetX
  let effectiveMapHeight := mapHeight - mapOffsetY
  let scaleToFitWidth := rect.width / effectiveMapWidth
  let scaleToFitHeight := rect.height / effectiveMapHeight
  let optimalScale := min scaleToFitWidth scaleToFitHeight * (95 / 100)
  max optimalScale (6 / 10)

/-- The pre-clamp centering translation of `centerMap`:
`((w - effectiveWidth * s) / 2, (h - effectiveHeight * s) / 2)`. -/
def centerMapRaw (rect : Rect) : ℚ × ℚ :=
  let s := centerMapScale rect
  ((rect.width - (2638 - 455) * s) / 2, (rect.height - (1822 - 521) * s) / 2)

/-- `centerMap`, the mount-time centering effect: no-op without a rect,
otherwise the centered transform with its translation clamped. -/
def centerMap (rect? : Option Rect) (t : Transform) : Transform :=
  match rect? with
  | none => t
  | some rect =>
    let s := centerMapScale rect
    let raw := centerMapRaw rect
    let c := constrainToBounds (some rect) raw.1 raw.2 s
    { x := c.1, y := c.2, scale := s }

/-- The Reset button's onClick handler (`src/src/types/index.ts` lines
802-830), embedded from its own (duplicated) source text. -/
def resetButton (rect? : Option Rect) (t : Transform) : Transform :=
  match rect? with
  | none => t
  | some rect =>
    let mapWidth : ℚ := 2638
    let mapHeight : ℚ := 1822
    let mapOffsetX : ℚ := 455
    let mapOffsetY : ℚ := 521
    let effectiveMapWidth := mapWidth - mapOffsetX
    let effectiveMapHeight := mapHeight - mapOffsetY
    let scaleToFitWidth := rect.width / effectiveMapWidth
    let scaleToFitHeight := rect.height / effectiveMapHeight
    let optimalScale := min scaleToFitWidth scaleToFitHeight * (95 / 100)
    let resetScale := max optimalScale (6 / 10)
    let centerX := (rect.width - effectiveMapWidth * resetScale) / 2
    let centerY := (rect.height - effectiveMapHeight * resetScale) / 2
    let c := constrainToBounds (some rect) centerX centerY resetScale
    { x := c.1, y := c.2, scale := resetScale }

/-- The zoom-in (+) button handler (`src/src/types/index.ts` lines 757-771):
`newScale = min(scale * 1.2, 3)`, translation re-clamped at the new scale.
It does not read the rect itself, only `constrainToBounds` does. -/
def zoomInButton (rect? : Option Rect) (t : Transform) : Transform :=
  let newScale := min (t.scale * (12 / 10)) 3
  let c := constrainToBounds rect? t.x t.y newScale
  { x := c.1, y := c.2, scale := newScale }

/-- The zoom-out (−) button handler (`src/src/types/index.ts` lines 772-801):
no-op without a rect; otherwise `newScale = max(scale * 0.8, absoluteMinZoom)`
with the same dynamic minimum as `handleWheel`. -/
def zoomOutButton (rect? : Option Rect) (t : Transform) : Transform :=
  match rect? with
  | none => t
  | some rect =>
    let mapWidth : ℚ := 2638
    let mapHeight : ℚ := 1822
    let mapOffsetX : ℚ := 455
    let mapOffsetY : ℚ := 521
    let effectiveMapWidth := mapWidth - mapOffsetX
    let effectiveMapHeight := mapHeight - mapOffsetY
    let scaleToFitWidth := rect.width / effectiveMapWidth
    let scaleToFitHeight := rect.height / effectiveMapHeight
    let minZoomScale := min scaleToFitWidth scaleToFitHeight * (9 / 10)
    let absoluteMinZoom := max minZoomScale (6 / 10)
    let newScale := max (t.scale * (8 / 10)) absoluteMinZoom
    let c := constrainToBounds (some rect) t.x t.y newScale
    { x := c.1, y := c.2, scale := newScale }

/-- The logical-canvas coordinate that maps to container-relative screen point
`(sx, sy)` under transform `t`, inverting the public rendering contract
`screen = logical * scale + translate`. -/
def logicalOfScreen (t : Transform) (sx sy : ℚ) : ℚ × ℚ :=
  ((sx - t.x) / t.scale, (sy - t.y) / t.scale)

/-- Modelled from the spec: the input to the clustering engine
(`src/utils/markerClustering.ts` is not present in the sources; spec §3, §6).
A GeoPoint has a stable unique identifier, a normalized position with `x`, `y`
each in `[0,100]` (percentages of the logical canvas), and an opaque payload
(elided: nothing in the claims depends on it).  Identifiers are embedded as
naturals. -/
structure GeoPoint where
  id : Nat
  x : ℚ
  y : ℚ
deriving DecidableEq

/-- Denormalize a normalized x-percentage to logical-canvas pixels
(spec §4.1 preprocessing; the same formula the marker rendering uses:
`(x / 100) * 2638`). -/
def denormX (x : ℚ) : ℚ := x / 100 * 2638

/-- Denormalize a normalized y-percentage to logical-canvas pixels:
`(y / 100) * 1822`. -/
def denormY (y : ℚ) : ℚ := y / 100 * 1822

/-- Modelled from the spec: a cluster (`src/utils/markerClustering.ts` is not
present in the sources; spec §3).  A per-run id, a centroid `(x, y)` in
logical-canvas pixel coordinates (running mean of the members' denormalized
positions), and the member list in insertion order.  The member-list field is
named `projects` as in the callers (`cluster.projects` in `InteractiveMap`). -/
structure Cluster where
  id : Nat
  x : ℚ
  y : ℚ
  projects : List GeoPoint
deriving DecidableEq

/-- Squared Euclidean distance between two pixel positions.  The spec compares
the Euclidean distance against the clustering radius; for a nonnegative radius
that comparison is equivalent to comparing the squares, which keeps the model
inside `ℚ`. -/
def distSq (x1 y1 x2 y2 : ℚ) : ℚ := (x1 - x2) * (x1 - x2) + (y1 - y2) * (y1 - y2)

/-- Modelled from the spec: the index of the existing cluster whose centroid
is nearest to pixel position `(px, py)`, together with the squared distance to
it; ties attach to the earlier-formed cluster (lower index) (spec §4.1
tie-break).  `none` when there are no clusters yet. -/
def nearestCluster (px py : ℚ) : List Cluster → Option (Nat × ℚ)
  | [] => none
  | c :: cs =>
    let d := distSq px py c.x c.y
    match nearestCluster px py cs with
    | none => some (0, d)
    | some (j, dj) => if dj < d then some (j + 1, dj) else some (0, d)

/-- Modelled from the spec: append point `p` to cluster `c` and recompute the
centroid as the running mean of all members' denormalized positions
(spec §4.1). -/
def joinCluster (c : Cluster) (p : GeoPoint) : Cluster :=
  let n : ℚ := c.projects.length
  { c with
    x := (c.x * n + denormX p.x) / (n + 1),
    y := (c.y * n + denormY p.y) / (n + 1),
    projects := c.projects ++ [p] }

/-- Replace the cluster at position `i` with itself joined with `p`; leaves
the list unchanged when `i` is out of range. -/
def updateAt : List Cluster → Nat → GeoPoint → List Cluster
  | [], _, _ => []
  | c :: cs, 0, p => joinCluster c p :: cs
  | c :: cs, Nat.succ i, p => c :: updateAt cs i p

/-- Modelled from the spec: one step of the greedy single-pass grouping
(spec §4.1).  If the nearest existing centroid is within the clustering
radius, append the point to that cluster; otherwise start a new singleton
cluster (appended at the end, so list order is formation order and the new
cluster's id is its formation index). -/
def addPoint (radius : ℚ) (cs : List Cluster) (p : GeoPoint) : List Cluster :=
  let px := denormX p.x
  let py := denormY p.y
  match nearestCluster px py cs with
  | none => cs ++ [⟨cs.length, px, py, [p]⟩]
  | some (i, d) =>
    if d ≤ radius * radius then updateAt cs i p
    else cs ++ [⟨cs.length, px, py, [p]⟩]

/-- Modelled from the spec: the clustering radius shrinks as scale grows,
`radius = baseRadius / scale` with `baseRadius = 80` (spec §4.1; §8 end-to-end
scenario: effective radius ≈ 80px at scale 1). -/
def clusterRadius (scale : ℚ) : ℚ := 80 / scale

/-- Modelled from the spec: `clusterMarkers(points, scale)`
(`src/utils/markerClustering.ts` is not present in the sources; spec §4.1).
Greedy single-pass grouping over the points in input order, against the
clusters formed so far. -/
def clusterMarkers (points : List GeoPoint) (scale : ℚ) : List Cluster :=
  points.foldl (addPoint (clusterRadius scale)) []

/-- All points carried by a list of clusters, cluster by cluster in member
order. -/
def clusterPoints (cs : List Cluster) : List GeoPoint :=
  (cs.map Cluster.projects).flatten

/-- `handleClusterClick` (`src/src/types/index.ts` lines 305-342): a singleton
cluster opens the project (no transform change); otherwise, when the rect is
available, zoom to `min(scale * 2.5, 3)` and center the cluster centroid
(shifted by the map offset 455/521) in the viewport, clamped to bounds. -/
def handleClusterClick (rect? : Option Rect) (cluster : Cluster) (t : Transform) : Transform :=
  if cluster.projects.length = 1 then t
  else
    match rect? with
    | none => t
    | some rect =>
      let mapOffsetX : ℚ := 455
      let mapOffsetY : ℚ := 521
      let actualClusterX := cluster.x - mapOffsetX
      let actualClusterY := cluster.y - mapOffsetY
      let newScale := min (t.scale * (25 / 10)) 3
      let newX := rect.width / 2 - actualClusterX * newScale
      let newY := rect.height / 2 - actualClusterY * newScale
      let c := constrainToBounds (some rect) newX newY newScale
      { x := c.1, y := c.2, scale := newScale }

/-- The marker denormalization in `InteractiveMap` (`src/src/types/index.ts`
lines 657-669): a present numeric location is scaled by the formula
`(x / 100) * 2638`, `(y / 100) * 1822`; a missing (or non-numeric) location
falls back to the canvas center `(2638 / 2, 1822 / 2)`. -/
def markerPosition (location : Option (ℚ × ℚ)) : ℚ × ℚ :=
  match location with
  | some (lx, ly) => (lx / 100 * 2638, ly / 100 * 1822)
  | none => (2638 / 2, 1822 / 2)

/-- Four collinear points (equal `y`) whose denormalized x-positions are
64, 24, 88 and 0 canvas pixels: a concrete input for exercising the greedy
grouping at two nearby scales. -/
def c5pts : List GeoPoint :=
  [⟨1, 3200 / 1319, 0⟩, ⟨2, 1200 / 1319, 0⟩, ⟨3, 4400 / 1319, 0⟩, ⟨4, 0, 0⟩]

/-- Clamping twice with the same bounds gives the same value, even when the
interval is degenerate (`hi < lo`). -/
theorem clamp_clamp (v lo hi : ℚ) : clamp (clamp v lo hi) lo hi = clamp v lo hi := by
  unfold clamp
  rcases le_total (max v lo) hi with h1 | h1
  · rw [min_eq_left h1, max_eq_left (le_max_right v lo)]
    exact min_eq_left h1
  · rw [min_eq_right h1]
    rcases le_total lo hi with h2 | h2
    · rw [max_eq_left h2, min_self]
    · rw [max_eq_right h2]
      exact min_eq_right h2

/-- C3: for every measured viewport, `constrainToBounds` returns exactly the
spec's clamp of `x` into `[viewportWidth - 2638*scale, 455*scale]` and of `y`
into `[viewportHeight - 1822*scale, 521*scale]`. -/
theorem constrainToBounds_eq_clamp (rect : Rect) (x y scale : ℚ) :
    constrainToBounds (some rect) x y scale =
      (clamp x (rect.width - 2638 * scale) (455 * scale),
       clamp y (rect.height - 1822 * scale) (521 * scale)) := rfl

/-- C7: `constrainToBounds` is idempotent: re-clamping its output with the
same scale and the same viewport measurement (including the unmeasured case)
returns it unchanged. -/
theorem constrainToBounds_idem (rect? : Option Rect) (x y scale : ℚ) :
    constrainToBounds rect? (constrainToBounds rect? x y scale).1
      (constrainToBounds rect? x y scale).2 scale =
      constrainToBounds rect? x y scale := by
  match rect? with
  | none => rfl
  | some rect =>
    show (clamp (clamp x _ _) _ _, clamp (clamp y _ _) _ _) = (clamp x _ _, clamp y _ _)
    rw [clamp_clamp, clamp_clamp]

/-- The scale produced by the wheel handler is positive: it is at least the
absolute minimum zoom, which is floored at 0.6. -/
theorem handleWheelRaw_scale_pos (rect : Rect) (clientX clientY deltaY : ℚ) (t : Transform) :
    0 < (handleWheelRaw rect clientX clientY deltaY t).scale := by
  simp only [handleWheelRaw]
  exact lt_min
    (lt_of_lt_of_le (by norm_num) ((le_max_right _ _).trans (le_max_right _ _)))
    (by norm_num)

/-- The scale produced by the pinch handler is positive: it is floored at
0.6. -/
theorem handlePinchRaw_scale_pos (rect : Rect)
    (t1x t1y t2x t2y lastTouchDistance currentDistance : ℚ) (t : Transform) :
    0 < (handlePinchRaw rect t1x t1y t2x t2y lastTouchDistance currentDistance t).scale := by
  simp only [handlePinchRaw]
  exact lt_min (lt_of_lt_of_le (by norm_num) (le_max_right _ _)) (by norm_num)

/-- The zoom-anchoring translation update keeps the focal point's logical
coordinate fixed: for any nonzero old and new scales. -/
theorem logicalOfScreen_anchor (px py : ℚ) (t : Transform) (s' : ℚ)
    (hs : t.scale ≠ 0) (hs' : s' ≠ 0) :
    logicalOfScreen
        ⟨px - (px - t.x) * (s' / t.scale), py - (py - t.y) * (s' / t.scale), s'⟩ px py =
      logicalOfScreen t px py := by
  unfold logicalOfScreen
  have h1 : (px - (px - (px - t.x) * (s' / t.scale))) / s' = (px - t.x) / t.scale := by
    field_simp
    ring
  have h2 : (py - (py - (py - t.y) * (s' / t.scale))) / s' = (py - t.y) / t.scale := by
    field_simp
    ring
  simp only at h1 h2 ⊢
  rw [h1, h2]

/-- C2: for every transform with positive scale, the raw (pre-clamping)
translation computed by the wheel handler and by the pinch handler keeps the
focal screen point fixed: the logical-canvas coordinate mapping to the mouse
position (resp. the pinch midpoint) under the new transform equals the one
under the old transform. -/
theorem zoom_anchor_invariant (rect : Rect)
    (clientX clientY deltaY t1x t1y t2x t2y lastTouchDistance currentDistance : ℚ)
    (t : Transform) (hs : 0 < t.scale) :
    logicalOfScreen (handleWheelRaw rect clientX clientY deltaY t)
        (clientX - rect.left) (clientY - rect.top) =
      logicalOfScreen t (clientX - rect.left) (clientY - rect.top) ∧
    logicalOfScreen (handlePinchRaw rect t1x t1y t2x t2y lastTouchDistance currentDistance t)
        ((t1x + t2x) / 2 - rect.left) ((t1y + t2y) / 2 - rect.top) =
      logicalOfScreen t ((t1x + t2x) / 2 - rect.left) ((t1y + t2y) / 2 - rect.top) := by
  constructor
  · have hw := ne_of_gt (handleWheelRaw_scale_pos rect clientX clientY deltaY t)
    simp only [handleWheelRaw] at hw ⊢
    exact logicalOfScreen_anchor _ _ t _ (ne_of_gt hs) hw
  · have hp := ne_of_gt
      (handlePinchRaw_scale_pos rect t1x t1y t2x t2y lastTouchDistance currentDistance t)
    simp only [handlePinchRaw] at hp ⊢
    exact logicalOfScreen_anchor _ _ t _ (ne_of_gt hs) hp

/-- Witness for C2 at a concrete transform, viewport and gesture. -/
theorem zoom_anchor_invariant_witness :
    0 < (Transform.mk 10 20 1).scale ∧
    (logicalOfScreen (handleWheelRaw ⟨0, 0, 800, 600⟩ 100 50 1 ⟨10, 20, 1⟩)
        (100 - (Rect.mk 0 0 800 600).left) (50 - (Rect.mk 0 0 800 600).top) =
      logicalOfScreen ⟨10, 20, 1⟩
        (100 - (Rect.mk 0 0 800 600).left) (50 - (Rect.mk 0 0 800 600).top) ∧
    logicalOfScreen (handlePinchRaw ⟨0, 0, 800, 600⟩ 30 40 50 60 10 20 ⟨10, 20, 1⟩)
        ((30 + 50) / 2 - (Rect.mk 0 0 800 600).left)
        ((40 + 60) / 2 - (Rect.mk 0 0 800 600).top) =
      logicalOfScreen ⟨10, 20, 1⟩
        ((30 + 50) / 2 - (Rect.mk 0 0 800 600).left)
        ((40 + 60) / 2 - (Rect.mk 0 0 800 600).top)) :=
  ⟨by norm_num,
   zoom_anchor_invariant ⟨0, 0, 800, 600⟩ 100 50 1 30 40 50 60 10 20 ⟨10, 20, 1⟩ (by norm_num)⟩

/-- C4: for every measured viewport, the mount-time centering and the Reset
button both set the scale to `max(0.6, 0.95 * min(w/2183, h/1301))` and place
the pre-clamp translation so that the effective 2183 by 1301 canvas is
centered: `x = (w - 2183*scale)/2`, `y = (h - 1301*scale)/2`; the two
operations agree whatever the previous transforms were. -/
theorem centerMap_reset_initialize (rect : Rect) (t t' : Transform) :
    centerMapScale rect =
      max ((6 : ℚ) / 10) ((95 / 100) * min (rect.width / 2183) (rect.height / 1301)) ∧
    centerMapRaw rect = ((rect.width - 2183 * centerMapScale rect) / 2,
      (rect.height - 1301 * centerMapScale rect) / 2) ∧
    (centerMap (some rect) t).scale = centerMapScale rect ∧
    resetButton (some rect) t = centerMap (some rect) t' := by
  refine ⟨?_, ?_, rfl, ?_⟩
  · show max (min (rect.width / (2638 - 455)) (rect.height / (1822 - 521)) * (95 / 100)) (6 / 10)
      = _
    rw [max_comm, mul_comm]
    norm_num
  · show ((rect.width - (2638 - 455) * centerMapScale rect) / 2,
      (rect.height - (1822 - 521) * centerMapScale rect) / 2) = _
    norm_num
  · rfl

/-- Counterexample to C6: on a large viewport (8000 by 5000), the mount-time
centering produces a scale 0.95 * 8000/2183 = 7600/2183, strictly greater
than the claimed ceiling 3. -/
theorem centerMap_scale_exceeds_three :
    3 < (centerMap (some ⟨0, 0, 8000, 5000⟩) ⟨0, 0, 1⟩).scale := by
  norm_num [centerMap, centerMapScale]

/-- C6 amended: the wheel, pinch, zoom-in-button and cluster-zoom operations
always cap the resulting scale at 3 (given the guards of their code paths:
nonzero recorded and current pinch distances, non-singleton cluster); the
mount-time centering, Reset, and the zoom-out button's dynamic floor are not
capped at 3 and can exceed it on viewports larger than about 6893 by 4110. -/
theorem zoom_ops_scale_le_three (rect : Rect) (rect? : Option Rect)
    (clientX clientY deltaY t1x t1y t2x t2y lastTouchDistance currentDistance : ℚ)
    (c : Cluster) (t : Transform)
    (hl : lastTouchDistance ≠ 0) (hc : currentDistance ≠ 0) (hn : c.projects.length ≠ 1) :
    (handleWheel (some rect) clientX clientY deltaY t).scale ≤ 3 ∧
    (handleTouchMovePinch (some rect) t1x t1y t2x t2y lastTouchDistance currentDistance
      t).scale ≤ 3 ∧
    (zoomInButton rect? t).scale ≤ 3 ∧
    (handleClusterClick (some rect) c t).scale ≤ 3 := by
  refine ⟨min_le_right _ _, ?_, min_le_right _ _, ?_⟩
  · simp only [handleTouchMovePinch, if_neg hl, if_neg hc]
    exact min_le_right _ _
  · simp only [handleClusterClick, if_neg hn]
    exact min_le_right _ _

/-- Witness for C6 (amended) at a concrete viewport, gesture and cluster. -/
theorem zoom_ops_scale_le_three_witness :
    (10 : ℚ) ≠ 0 ∧ (20 : ℚ) ≠ 0 ∧ (Cluster.mk 0 500 600 []).projects.length ≠ 1 ∧
    ((handleWheel (some ⟨0, 0, 800, 600⟩) 100 50 1 ⟨10, 20, 1⟩).scale ≤ 3 ∧
     (handleTouchMovePinch (some ⟨0, 0, 800, 600⟩) 30 40 50 60 10 20 ⟨10, 20, 1⟩).scale ≤ 3 ∧
     (zoomInButton none ⟨10, 20, 1⟩).scale ≤ 3 ∧
     (handleClusterClick (some ⟨0, 0, 800, 600⟩) ⟨0, 500, 600, []⟩ ⟨10, 20, 1⟩).scale ≤ 3) :=
  ⟨by norm_num, by norm_num, by decide,
   zoom_ops_scale_le_three ⟨0, 0, 800, 600⟩ none 100 50 1 30 40 50 60 10 20
     ⟨0, 500, 600, []⟩ ⟨10, 20, 1⟩ (by norm_num) (by norm_num) (by decide)⟩

/-- Counterexample to C8: a measured but zero-sized viewport is not treated
as unavailable: a wheel zoom-in on a 0 by 0 rect still mutates the transform
(the scale becomes 1.1). -/
theorem zero_viewport_wheel_not_noop :
    handleWheel (some ⟨0, 0, 0, 0⟩) 0 0 (-1) ⟨0, 0, 1⟩ ≠ ⟨0, 0, 1⟩ := by
  norm_num [handleWheel, handleWheelRaw, constrainToBounds, Transform.mk.injEq]

/-- C8 amended: when the map element is not yet mounted (no bounding rect at
all), every transform operation that reads the rect is a no-op leaving the
transform unchanged: wheel zoom, pinch zoom, mount-time centering, Reset,
zoom-out button, and cluster zoom. -/
theorem no_rect_ops_noop
    (clientX clientY deltaY t1x t1y t2x t2y lastTouchDistance currentDistance : ℚ)
    (c : Cluster) (t : Transform) :
    handleWheel none clientX clientY deltaY t = t ∧
    handleTouchMovePinch none t1x t1y t2x t2y lastTouchDistance currentDistance t = t ∧
    centerMap none t = t ∧
    resetButton none t = t ∧
    zoomOutButton none t = t ∧
    handleClusterClick none c t = t := by
  refine ⟨rfl, ?_, rfl, rfl, rfl, ?_⟩
  · unfold handleTouchMovePinch
    split <;> rfl
  · unfold handleClusterClick
    split <;> rfl

/-- C10: the dragging branches of the mouse-move and touch-move handlers never
change the scale, and set the translation to the dragged position clamped by
`constrainToBounds` at that unchanged scale. -/
theorem pan_preserves_scale (isDragging : Bool)
    (dragStartX dragStartY clientX clientY touchX touchY : ℚ)
    (rect? : Option Rect) (t : Transform) (h : isDragging = true) :
    (handleMouseMove isDragging dragStartX dragStartY clientX clientY rect? t).scale =
      t.scale ∧
    ((handleMouseMove isDragging dragStartX dragStartY clientX clientY rect? t).x,
     (handleMouseMove isDragging dragStartX dragStartY clientX clientY rect? t).y) =
      constrainToBounds rect? (clientX - dragStartX) (clientY - dragStartY) t.scale ∧
    (handleTouchMoveDrag isDragging dragStartX dragStartY touchX touchY rect? t).scale =
      t.scale ∧
    ((handleTouchMoveDrag isDragging dragStartX dragStartY touchX touchY rect? t).x,
     (handleTouchMoveDrag isDragging dragStartX dragStartY touchX touchY rect? t).y) =
      constrainToBounds rect? (touchX - dragStartX) (touchY - dragStartY) t.scale := by
  subst h
  exact ⟨rfl, rfl, rfl, rfl⟩

/-- Witness for C10 at a concrete drag. -/
theorem pan_preserves_scale_witness :
    true = true ∧
    ((handleMouseMove true 5 6 105 206 (some ⟨0, 0, 800, 600⟩) ⟨0, 0, 1⟩).scale = 
      (Transform.mk 0 0 1).scale ∧
    ((handleMouseMove true 5 6 105 206 (some ⟨0, 0, 800, 600⟩) ⟨0, 0, 1⟩).x,
     (handleMouseMove true 5 6 105 206 (some ⟨0, 0, 800, 600⟩) ⟨0, 0, 1⟩).y) =
      constrainToBounds (some ⟨0, 0, 800, 600⟩) (105 - 5) (206 - 6)
        (Transform.mk 0 0 1).scale ∧
    (handleTouchMoveDrag true 5 6 7 8 (some ⟨0, 0, 800, 600⟩) ⟨0, 0, 1⟩).scale =
      (Transform.mk 0 0 1).scale ∧
    ((handleTouchMoveDrag true 5 6 7 8 (some ⟨0, 0, 800, 600⟩) ⟨0, 0, 1⟩).x,
     (handleTouchMoveDrag true 5 6 7 8 (some ⟨0, 0, 800, 600⟩) ⟨0, 0, 1⟩).y) =
      constrainToBounds (some ⟨0, 0, 800, 600⟩) (7 - 5) (8 - 6)
        (Transform.mk 0 0 1).scale) :=
  ⟨rfl, pan_preserves_scale true 5 6 105 206 7 8 (some ⟨0, 0, 800, 600⟩) ⟨0, 0, 1⟩ rfl⟩

/-- Counterexample to C9: a numeric position outside [0,100] does not fall
back to the canvas center: `x = 200` is denormalized by the formula to 5276,
not to 2638/2 = 1319. -/
theorem markerPosition_out_of_range_not_center :
    ¬ ((200 : ℚ) ≤ 100) ∧
    markerPosition (some (200, 50)) = (5276, 911) ∧
    markerPosition (some (200, 50)) ≠ ((2638 : ℚ) / 2, (1822 : ℚ) / 2) := by
  norm_num [markerPosition]

/-- C9 amended: the center fallback `(2638/2, 1822/2)` applies exactly when
the location is missing (or non-numeric); every numeric position - in range
or not - is denormalized by `(x/100*2638, y/100*1822)`, and for positions in
[0,100] x [0,100] the result lies inside the logical canvas. -/
theorem markerPosition_denormalizes (lx ly : ℚ)
    (hx0 : 0 ≤ lx) (hx1 : lx ≤ 100) (hy0 : 0 ≤ ly) (hy1 : ly ≤ 100) :
    markerPosition none = (2638 / 2, 1822 / 2) ∧
    markerPosition (some (lx, ly)) = (lx / 100 * 2638, ly / 100 * 1822) ∧
    0 ≤ (markerPosition (some (lx, ly))).1 ∧ (markerPosition (some (lx, ly))).1 ≤ 2638 ∧
    0 ≤ (markerPosition (some (lx, ly))).2 ∧ (markerPosition (some (lx, ly))).2 ≤ 1822 := by
  refine ⟨rfl, rfl, ?_, ?_, ?_, ?_⟩ <;> simp only [markerPosition] <;> nlinarith

/-- Witness for C9 (amended) at a concrete in-range position. -/
theorem markerPosition_denormalizes_witness :
    (0 : ℚ) ≤ 10 ∧ (10 : ℚ) ≤ 100 ∧ (0 : ℚ) ≤ 20 ∧ (20 : ℚ) ≤ 100 ∧
    (markerPosition none = (2638 / 2, 1822 / 2) ∧
     markerPosition (some (10, 20)) = (10 / 100 * 2638, 20 / 100 * 1822) ∧
     0 ≤ (markerPosition (some ((10 : ℚ), (20 : ℚ)))).1 ∧
     (markerPosition (some ((10 : ℚ), (20 : ℚ)))).1 ≤ 2638 ∧
     0 ≤ (markerPosition (some ((10 : ℚ), (20 : ℚ)))).2 ∧
     (markerPosition (some ((10 : ℚ), (20 : ℚ)))).2 ≤ 1822) :=
  ⟨by norm_num, by norm_num, by norm_num, by norm_num,
   markerPosition_denormalizes 10 20 (by norm_num) (by norm_num) (by norm_num) (by norm_num)⟩

/-- A nearest-cluster index is always in range. -/
theorem nearestCluster_lt_length (px py : ℚ) (cs : List Cluster) (i : Nat) (d : ℚ)
    (h : nearestCluster px py cs = some (i, d)) : i < cs.length := by
  induction cs generalizing i d with
  | nil => simp [nearestCluster] at h
  | cons c cs ih =>
    simp only [nearestCluster] at h
    cases hrec : nearestCluster px py cs with
    | none =>
      rw [hrec] at h
      simp only [Option.some.injEq, Prod.mk.injEq] at h
      rw [← h.1]
      simp
    | some jd =>
      obtain ⟨j, dj⟩ := jd
      rw [hrec] at h
      simp only at h
      split at h
      · simp only [Option.some.injEq, Prod.mk.injEq] at h
        rw [← h.1]
        exact Nat.succ_lt_succ (ih j dj hrec)
      · simp only [Option.some.injEq, Prod.mk.injEq] at h
        rw [← h.1]
        simp

/-- Joining a point into the cluster at an in-range index adds exactly that
point (at the multiset level) to the carried points. -/
theorem clusterPoints_updateAt (cs : List Cluster) (i : Nat) (p : GeoPoint)
    (h : i < cs.length) :
    (clusterPoints (updateAt cs i p)).Perm (clusterPoints cs ++ [p]) := by
  induction cs generalizing i with
  | nil => simp at h
  | cons c cs ih =>
    cases i with
    | zero =>
      simp only [updateAt, clusterPoints, List.map_cons, List.flatten_cons, joinCluster]
      rw [List.append_assoc, List.append_assoc]
      exact List.Perm.append_left c.projects List.perm_append_comm
    | succ i =>
      simp only [updateAt, clusterPoints, List.map_cons, List.flatten_cons]
      rw [List.append_assoc]
      exact List.Perm.append_left c.projects
        (ih i (Nat.lt_of_succ_lt_succ (by simpa using h)))

/-- One greedy step adds exactly the new point (at the multiset level) to the
carried points, whether it joins an existing cluster or starts a new one. -/
theorem clusterPoints_addPoint (radius : ℚ) (cs : List Cluster) (p : GeoPoint) :
    (clusterPoints (addPoint radius cs p)).Perm (clusterPoints cs ++ [p]) := by
  have happ : clusterPoints (cs ++ [⟨cs.length, denormX p.x, denormY p.y, [p]⟩]) =
      clusterPoints cs ++ [p] := by
    simp [clusterPoints]
  cases hn : nearestCluster (denormX p.x) (denormY p.y) cs with
  | none =>
    simp only [addPoint, hn]
    rw [happ]
  | some id0 =>
    obtain ⟨i, d⟩ := id0
    simp only [addPoint, hn]
    split
    · exact clusterPoints_updateAt cs i p (nearestCluster_lt_length _ _ _ _ _ hn)
    · rw [happ]

/-- Folding the greedy step over a point list appends exactly those points
(at the multiset level) to the carried points. -/
theorem clusterPoints_foldl (radius : ℚ) (pts : List GeoPoint) (cs : List Cluster) :
    (clusterPoints (pts.foldl (addPoint radius) cs)).Perm (clusterPoints cs ++ pts) := by
  induction pts generalizing cs with
  | nil =>
    rw [List.foldl_nil, List.append_nil]
  | cons p pts ih =>
    rw [List.foldl_cons]
    refine (ih (addPoint radius cs p)).trans ?_
    have h2 : (clusterPoints cs ++ [p]) ++ pts = clusterPoints cs ++ (p :: pts) := by
      simp
    rw [← h2]
    exact (clusterPoints_addPoint radius cs p).append_right pts

/-- Joining a point into a cluster list keeps every member list nonempty. -/
theorem updateAt_projects_ne_nil (cs : List Cluster) (i : Nat) (p : GeoPoint)
    (h : ∀ c ∈ cs, c.projects ≠ []) :
    ∀ c ∈ updateAt cs i p, c.projects ≠ [] := by
  induction cs generalizing i with
  | nil => simp [updateAt]
  | cons c cs ih =>
    cases i with
    | zero =>
      intro c' hc'
      rcases (List.mem_cons).1 hc' with h1 | h1
      · rw [h1]
        simp [joinCluster]
      · exact h c' ((List.mem_cons).2 (Or.inr h1))
    | succ i =>
      intro c' hc'
      rcases (List.mem_cons).1 hc' with h1 | h1
      · rw [h1]
        exact h c ((List.mem_cons).2 (Or.inl rfl))
      · exact ih i (fun d hd => h d ((List.mem_cons).2 (Or.inr hd))) c' h1

/-- One greedy step keeps every member list nonempty. -/
theorem addPoint_projects_ne_nil (radius : ℚ) (cs : List Cluster) (p : GeoPoint)
    (h : ∀ c ∈ cs, c.projects ≠ []) :
    ∀ c ∈ addPoint radius cs p, c.projects ≠ [] := by
  have happ : ∀ c ∈ cs ++ [(⟨cs.length, denormX p.x, denormY p.y, [p]⟩ : Cluster)],
      c.projects ≠ [] := by
    intro c' hc'
    rcases (List.mem_append).1 hc' with h1 | h1
    · exact h c' h1
    · rw [List.mem_singleton.1 h1]
      simp
  cases hn : nearestCluster (denormX p.x) (denormY p.y) cs with
  | none =>
    simp only [addPoint, hn]
    exact happ
  | some id0 =>
    obtain ⟨i, d⟩ := id0
    simp only [addPoint, hn]
    split
    · exact updateAt_projects_ne_nil cs i p h
    · exact happ

/-- The greedy fold keeps every member list nonempty. -/
theorem foldl_projects_ne_nil (radius : ℚ) (pts : List GeoPoint) (cs : List Cluster)
    (h : ∀ c ∈ cs, c.projects ≠ []) :
    ∀ c ∈ pts.foldl (addPoint radius) cs, c.projects ≠ [] := by
  induction pts generalizing cs with
  | nil => simpa using h
  | cons p pts ih =>
    rw [List.foldl_cons]
    exact ih (addPoint radius cs p) (addPoint_projects_ne_nil radius cs p h)

/-- C1: the clusters returned by `clusterMarkers(points, scale)` partition the
input: the concatenation of all member lists is a permutation of the input
list (every input occurrence appears exactly once in exactly one cluster),
and every returned cluster has at least one member. -/
theorem cluster_partition (points : List GeoPoint) (scale : ℚ) :
    (clusterPoints (clusterMarkers points scale)).Perm points ∧
    ∀ c ∈ clusterMarkers points scale, c.projects ≠ [] := by
  constructor
  · have h := clusterPoints_foldl (clusterRadius scale) points []
    simpa [clusterPoints] using h
  · exact foldl_projects_ne_nil (clusterRadius scale) points [] (by simp)

/-- Counterexample to C5: on `c5pts` (denormalized x-positions 64, 24, 88, 0),
the greedy grouping yields 3 clusters at scale 2 (radius 40) but only 2
clusters at the larger scale 20/9 (radius 36): at the smaller radius the
first two points no longer merge, which leaves centroids where later points
can attach, so the cluster count decreases as scale increases. -/
theorem cluster_count_not_monotone :
    (2 : ℚ) ≤ 20 / 9 ∧
    (clusterMarkers c5pts 2).length = 3 ∧
    (clusterMarkers c5pts (20 / 9)).length = 2 := by
  refine ⟨by norm_num, ?_, ?_⟩ <;>
    norm_num [clusterMarkers, c5pts, addPoint, nearestCluster, joinCluster, updateAt,
      distSq, denormX, denormY, clusterRadius]

/-- C5 amended: the clustering radius `80 / scale` is monotonically
non-increasing in the scale (for positive scales), so effective radii shrink
as zoom grows; the number of clusters returned by the greedy algorithm,
however, is not monotone in the scale. -/
theorem clusterRadius_antitone (s1 s2 : ℚ) (h1 : 0 < s1) (h12 : s1 ≤ s2) :
    clusterRadius s2 ≤ clusterRadius s1 := by
  unfold clusterRadius
  rw [div_le_div_iff₀ (lt_of_lt_of_le h1 h12) h1]
  nlinarith

/-- Witness for C5 (amended) at concrete scales 1 and 2. -/
theorem clusterRadius_antitone_witness :
    (0 : ℚ) < 1 ∧ (1 : ℚ) ≤ 2 ∧ clusterRadius 2 ≤ clusterRadius 1 :=
  ⟨by norm_num, by norm_num, clusterRadius_antitone 1 2 (by norm_num) (by norm_num)⟩
